import Mathlib

/-!
Shallow embedding of the desktop-wakatime core: the Monitoring Policy
Engine, the Heartbeat Dispatcher (debounce), the Watcher lifecycle, the
Dependency Manager gate, the ConfigFile store, and the IPC surface
registered by the main process.  The IPC layer is embedded from
src/electron/main.ts; the helper modules (MonitoringManager, ConfigFile,
Wakatime, Watcher, Dependencies) are not part of the shown sources and are
modelled from the specification, as marked on each definition.
-/

/-- Filter mode of the monitoring policy (spec section 3, PolicyConfig). -/
inductive FilterType where
  | monitorAll
  | denylist
  | allowlist
deriving DecidableEq

/-- Domain granularity preference (spec section 3, PolicyConfig). -/
inductive DomainPreferenceType where
  | domain
  | subdomain
deriving DecidableEq

/-- Monitor target: the focused application or browser tab (spec section 3). -/
inductive MonitorTarget where
  | app (path : String)
  | browserTab (browserPath : String) (domain : String)
deriving DecidableEq

/-- PolicyConfig (spec section 3): filter type, the two pattern lists and
the domain preference. -/
structure PolicyConfig where
  filterType : FilterType
  denylist : List String
  allowlist : List String
  domainPreference : DomainPreferenceType

/-- Containment of one character list at the head of another. -/
def listStarts : List Char → List Char → Bool
  | [], _ => true
  | _ :: _, [] => false
  | a :: as, b :: bs => a == b && listStarts as bs

/-- Containment of one character list anywhere inside another. -/
def listContains (needle : List Char) : List Char → Bool
  | [] => needle.isEmpty
  | h :: t => listStarts needle (h :: t) || listContains needle t

/-- Modelled from the spec: list matching of a user-supplied pattern against
a normalized path or domain string; the matcher itself is not shown in the
sources, the spec fixes only that matching is case-insensitive (spec
section 4.2), so a case-insensitive substring test stands in for it. -/
def matchesPattern (pat s : String) : Bool :=
  listContains (pat.toList.map Char.toLower) (s.toList.map Char.toLower)

/-- Splitting a character list into its dot-separated labels; the first
argument accumulates the current label in reverse. -/
def splitLabels (cur : List Char) : List Char → List (List Char)
  | [] => [cur.reverse]
  | c :: rest =>
    if c = '.' then cur.reverse :: splitLabels [] rest
    else splitLabels (c :: cur) rest

/-- Joining labels back with dots. -/
def joinDots : List (List Char) → List Char
  | [] => []
  | [l] => l
  | l :: rest => l ++ '.' :: joinDots rest

/-- Modelled from the spec: registrable-domain granularity used when
domainPreference is Domain (spec section 4.2): keep the last two
dot-separated labels of the hostname. -/
def registrableDomain (d : String) : String :=
  let labels := splitLabels [] d.toList
  if labels.length ≤ 2 then d
  else String.mk (joinDots (labels.drop (labels.length - 2)))

/-- String a target is compared against: the application path, or the
domain at the granularity selected by the domain preference
(spec section 4.2). -/
def targetKey (pref : DomainPreferenceType) : MonitorTarget → String
  | .app p => p
  | .browserTab _ d =>
    match pref with
    | .subdomain => d
    | .domain => registrableDomain d

/-- Per-app override catalog: sparse map from executable path to the
explicit monitored flag (spec sections 3 and 9, override map keyed by
executable path). -/
abbrev Catalog : Type := List (String × Bool)

/-- Lookup of the explicit per-app monitored override for a path. -/
def appOverride : Catalog → String → Option Bool
  | [], _ => none
  | (p, b) :: rest, q => if p = q then some b else appOverride rest q

/-- Modelled from the spec: list evaluation per PolicyConfig.filterType
(spec sections 3 and 4.2): MonitorAll always monitors, Denylist monitors
iff no denylist pattern matches, Allowlist monitors iff some allowlist
pattern matches. -/
def listDecision (cfg : PolicyConfig) (s : String) : Bool :=
  match cfg.filterType with
  | .monitorAll => true
  | .denylist => !(cfg.denylist.any (fun p => matchesPattern p s))
  | .allowlist => cfg.allowlist.any (fun p => matchesPattern p s)

/-- Modelled from the spec: MonitoringManager.shouldMonitor (spec
section 4.2), not among the shown sources.  Consults in order: (a) the
explicit per-app monitored override, which short-circuits with its value
for application targets; (b) for browser-tab targets the browser itself
must be explicitly monitored or monitoring is refused outright; (c) the
filter-type list evaluation on the target key. -/
def shouldMonitor (cat : Catalog) (cfg : PolicyConfig) : MonitorTarget → Bool
  | .app p =>
    match appOverride cat p with
    | some b => b
    | none => listDecision cfg (targetKey cfg.domainPreference (.app p))
  | .browserTab bp d =>
    if appOverride cat bp = some true then
      listDecision cfg (targetKey cfg.domainPreference (.browserTab bp d))
    else false

/-- Override that governs a target: for an application target its own
entry, for a browser-tab target the entry of the browser. -/
def targetOverride (cat : Catalog) : MonitorTarget → Option Bool
  | .app p => appOverride cat p
  | .browserTab bp _ => appOverride cat bp

/-- Gate under which the filter-type lists govern the decision: no
explicit override for an application target, and an explicitly monitored
browser for a browser-tab target. -/
def overrideGate (cat : Catalog) : MonitorTarget → Bool
  | .app p => (appOverride cat p).isNone
  | .browserTab bp _ => appOverride cat bp = some true

/-- Modelled from the spec: state of the Heartbeat Dispatcher (Wakatime,
spec section 4.3), not among the shown sources: the last target for which
a heartbeat was sent and the timestamp of that send. -/
structure WakatimeState where
  lastTarget : Option MonitorTarget
  lastSent : Nat
deriving DecidableEq

/-- Dispatcher state at process start: nothing sent yet. -/
def initialWakatime : WakatimeState := ⟨none, 0⟩

/-- Modelled from the spec: the debounce step of the Heartbeat Dispatcher
(spec section 4.3).  A target change forces an immediate send; a repeat of
the last target is sent only once the debounce window has elapsed since the
last send, and is dropped otherwise.  Returns the new state and whether a
heartbeat was sent.  The window length is a product constant left
configurable by the spec (section 9), so it is a parameter. -/
def handleEvent (window : Nat) (s : WakatimeState) (t : MonitorTarget)
    (time : Nat) : WakatimeState × Bool :=
  match s.lastTarget with
  | none => (⟨some t, time⟩, true)
  | some lt =>
    if lt = t then
      if s.lastSent + window ≤ time then (⟨some t, time⟩, true)
      else (s, false)
    else (⟨some t, time⟩, true)

/-- Folding the dispatcher over a sequence of (target, timestamp) events,
returning the final state and the number of heartbeats sent. -/
def runEvents (window : Nat) (s : WakatimeState) :
    List (MonitorTarget × Nat) → WakatimeState × Nat
  | [] => (s, 0)
  | (t, time) :: rest =>
    let r := handleEvent window s t time
    let r2 := runEvents window r.1 rest
    (r2.1, (if r.2 then 1 else 0) + r2.2)

/-- Modelled from the spec: lifecycle states of the Watcher
(spec section 4.1). -/
inductive WatcherState where
  | stopped
  | running
deriving DecidableEq

/-- Modelled from the spec: Watcher.start (spec section 4.1): transitions
Stopped to Running; a no-op while already Running. -/
def watcherStart : WatcherState → WatcherState
  | .stopped => .running
  | .running => .running

/-- Modelled from the spec: Watcher.stop (spec section 4.1): transitions
Running to Stopped; a no-op while already Stopped. -/
def watcherStop : WatcherState → WatcherState
  | .running => .stopped
  | .stopped => .stopped

/-- Modelled from the spec: states of the Dependency Manager state machine
(spec section 4.4). -/
inductive DepState where
  | unchecked
  | checking
  | installing
  | ready
  | failed
deriving DecidableEq

/-- Heartbeat handed to the external sender (spec section 3,
HeartbeatEvent). -/
structure HeartbeatEvent where
  target : MonitorTarget
  timestamp : Nat
  isWrite : Bool := false
deriving DecidableEq

/-- Events seen by the combined dispatcher-and-dependency system: a focus
event routed to the dispatcher, or completion of the dependency install. -/
inductive SysEvent where
  | focusEvent (t : MonitorTarget) (time : Nat)
  | installComplete
deriving DecidableEq

/-- Whether a system event is a focus event. -/
def SysEvent.isFocusEvent : SysEvent → Bool
  | .focusEvent _ _ => true
  | .installComplete => false

/-- Combined state: dependency-manager state plus dispatcher state. -/
structure SysState where
  dep : DepState
  wk : WakatimeState
deriving DecidableEq

/-- Modelled from the spec: one step of the system (spec sections 4.4
and 5).  The Dispatcher rejects sends while DependencyState is not Ready:
a focus event arriving before Ready is dropped without buffering, leaving
the dispatcher state untouched; install completion moves the dependency
state to Ready. -/
def sysStep (window : Nat) (s : SysState) :
    SysEvent → SysState × List HeartbeatEvent
  | .installComplete => (⟨.ready, s.wk⟩, [])
  | .focusEvent t time =>
    if s.dep = .ready then
      let r := handleEvent window s.wk t time
      (⟨s.dep, r.1⟩, if r.2 then [⟨t, time, false⟩] else [])
    else (s, [])

/-- Folding the combined system over a sequence of events, collecting
every heartbeat actually sent. -/
def sysRun (window : Nat) (s : SysState) :
    List SysEvent → SysState × List HeartbeatEvent
  | [] => (s, [])
  | e :: rest =>
    let r := sysStep window s e
    let r2 := sysRun window r.1 rest
    (r2.1, r.2 ++ r2.2)

/-- Actions of the app.whenReady startup handler, in the order they occur
in src/electron/main.ts lines 205-224. -/
inductive StartupAction where
  | activateLoggingToFile
  | logStarting
  | newDependencies
  | newWakatime
  | newWatcher
  | installDependencies
  | appsManagerLoad
  | createTray
  | watcherStartCall
deriving DecidableEq, BEq

/-- Startup sequence embedded from src/electron/main.ts lines 205-224:
dependencies are installed (awaited) and the apps catalog loaded before
the tray is created and the watcher started. -/
def whenReadySequence : List StartupAction :=
  [ .activateLoggingToFile
  , .logStarting
  , .newDependencies
  , .newWakatime
  , .newWatcher
  , .installDependencies
  , .appsManagerLoad
  , .createTray
  , .watcherStartCall ]

/-- Key of the config store: the internal flag, the section and the key
(spec section 6: get/set parameterized by section, key and internal). -/
abbrev ConfigKey : Type := Bool × String × String

/-- Association list backing one view of the config store. -/
abbrev ConfigMap : Type := List (ConfigKey × String)

/-- Lookup in a config map. -/
def cfgLookup : ConfigMap → ConfigKey → Option String
  | [], _ => none
  | (k2, v) :: rest, k => if k2 = k then some v else cfgLookup rest k

/-- Replace-or-append write in a config map. -/
def cfgUpsert : ConfigMap → ConfigKey → String → ConfigMap
  | [], k, v => [(k, v)]
  | (k2, v2) :: rest, k, v =>
    if k2 = k then (k, v) :: rest else (k2, v2) :: cfgUpsert rest k v

/-- Modelled from the spec: the ConfigFile store (spec sections 6 and 9),
not among the shown sources: durable bytes on disk plus the in-memory
cache of record; reads are served from the cache, writes are flushed to
durable storage and then applied to the cache. -/
structure ConfigStore where
  disk : ConfigMap
  cache : ConfigMap

namespace ConfigFile

/-- Modelled from the spec: ConfigFile.getSetting, read from the cached
view, selecting the internal or user-visible portion by the flag
(spec section 6). -/
def getSetting (c : ConfigStore) (sec key : String) (internal : Bool) :
    Option String :=
  cfgLookup c.cache (internal, sec, key)

/-- Modelled from the spec: ConfigFile.setSetting, synchronously flushed
to durable storage and then applied to the cache (spec sections 6
and 9). -/
def setSetting (c : ConfigStore) (sec key value : String)
    (internal : Bool) : ConfigStore :=
  ⟨cfgUpsert c.disk (internal, sec, key) value,
   cfgUpsert c.cache (internal, sec, key) value⟩

end ConfigFile

/-- Process restart: the in-memory cache is rebuilt from the durable
bytes on disk. -/
def restartConfig (c : ConfigStore) : ConfigStore := ⟨c.disk, c.disk⟩

/-- IpcKeys channels registered by ipcMain.on in src/electron/main.ts
lines 231-315. -/
inductive IpcKey where
  | getSetting
  | setSetting
  | getApps
  | getAppVersion
  | isMonitored
  | setMonitored
  | shouldLogToFile
  | setShouldLogToFile
  | shouldLaunchOnLogin
  | setShouldLaunchOnLogin
  | logFilePath
  | isBrowserMonitored
  | getDomainPreference
  | setDomainPreference
  | getFilterType
  | setFilterType
  | getDenylist
  | setDenylist
  | getAllowlist
  | setAllowlist
deriving DecidableEq, BEq

/-- Channels registered by the main process, embedded from the ipcMain.on
registrations of src/electron/main.ts lines 231-315, in source order. -/
def registeredIpcChannels : List IpcKey :=
  [ .getSetting
  , .setSetting
  , .getApps
  , .getAppVersion
  , .isMonitored
  , .setMonitored
  , .shouldLogToFile
  , .setShouldLogToFile
  , .shouldLaunchOnLogin
  , .setShouldLaunchOnLogin
  , .logFilePath
  , .isBrowserMonitored
  , .getDomainPreference
  , .setDomainPreference
  , .getFilterType
  , .setFilterType
  , .getDenylist
  , .setDenylist
  , .getAllowlist
  , .setAllowlist ]

/-- Operations enumerated by the external-interface section of the spec
(section 6): config get/set, catalog query, policy get/set, diagnostics
toggles and the log file path.  This definition follows the words of the
spec, to be compared with registeredIpcChannels taken from the source. -/
def specExternalSurface : List IpcKey :=
  [ .getSetting
  , .setSetting
  , .getApps
  , .isMonitored
  , .setMonitored
  , .getDomainPreference
  , .setDomainPreference
  , .getFilterType
  , .setFilterType
  , .getDenylist
  , .setDenylist
  , .getAllowlist
  , .setAllowlist
  , .shouldLogToFile
  , .setShouldLogToFile
  , .shouldLaunchOnLogin
  , .setShouldLaunchOnLogin
  , .logFilePath ]

/-- IPC getSetting handler embedded from src/electron/main.ts
lines 231-236: the internal argument defaults to false when the caller
omits it. -/
def ipcGetSetting (c : ConfigStore) (sec key : String)
    (internal : Option Bool) : Option String :=
  ConfigFile.getSetting c sec key (internal.getD false)

/-- IPC setSetting handler embedded from src/electron/main.ts
lines 238-249: the internal argument defaults to false when the caller
omits it. -/
def ipcSetSetting (c : ConfigStore) (sec key value : String)
    (internal : Option Bool) : ConfigStore :=
  ConfigFile.setSetting c sec key value (internal.getD false)

/-! Helper lemmas. -/

/-- Under the override gate, the decision is exactly the filter-type list
evaluation on the target key. -/
theorem shouldMonitor_eq_listDecision (cat : Catalog) (cfg : PolicyConfig)
    (t : MonitorTarget) (h : overrideGate cat t = true) :
    shouldMonitor cat cfg t = listDecision cfg (targetKey cfg.domainPreference t) := by
  cases t with
  | app p =>
    have hn : appOverride cat p = none := by
      have := h
      simp [overrideGate, Option.isNone_iff_eq_none] at this
      exact this
    simp [shouldMonitor, hn]
  | browserTab bp d =>
    have hb : appOverride cat bp = some true := by
      have := h
      simp [overrideGate] at this
      exact this
    simp [shouldMonitor, hb]

/-- Lookup after an upsert at the same key yields the written value. -/
theorem cfgLookup_cfgUpsert_self (m : ConfigMap) (k : ConfigKey) (v : String) :
    cfgLookup (cfgUpsert m k v) k = some v := by
  induction m with
  | nil => simp [cfgUpsert, cfgLookup]
  | cons e rest ih =>
    obtain ⟨k2, v2⟩ := e
    by_cases hk : k2 = k
    · simp [cfgUpsert, cfgLookup, hk]
    · simp [cfgUpsert, cfgLookup, hk, ih]

/-- Lookup after an upsert at a different key is unchanged. -/
theorem cfgLookup_cfgUpsert_ne (m : ConfigMap) (k k2 : ConfigKey) (v : String)
    (h : k2 ≠ k) : cfgLookup (cfgUpsert m k v) k2 = cfgLookup m k2 := by
  induction m with
  | nil => simp [cfgUpsert, cfgLookup, Ne.symm h]
  | cons e rest ih =>
    obtain ⟨k3, v3⟩ := e
    by_cases hk : k3 = k
    · subst hk
      simp [cfgUpsert, cfgLookup, Ne.symm h]
    · simp [cfgUpsert, cfgLookup, hk, ih]

/-- Repeats of the last-sent target whose timestamps stay inside the
debounce window are all dropped: state and send count are unchanged. -/
theorem runEvents_same_within (window : Nat) (t : MonitorTarget) (t0 : Nat) :
    ∀ times : List Nat, (∀ τ ∈ times, τ < t0 + window) →
    runEvents window ⟨some t, t0⟩ (times.map fun τ => (t, τ)) = (⟨some t, t0⟩, 0) := by
  intro times
  induction times with
  | nil => intro _; rfl
  | cons τ rest ih =>
    intro h
    have h1 : ¬ (t0 + window ≤ τ) := by
      have := h τ (by simp)
      omega
    have hstep : handleEvent window ⟨some t, t0⟩ t τ = (⟨some t, t0⟩, false) := by
      simp [handleEvent, h1]
    have hrest := ih (fun x hx => h x (by simp [hx]))
    simp [runEvents, hstep, hrest]

/-- Running the combined system over appended event lists composes. -/
theorem sysRun_append (window : Nat) (s : SysState) (l1 l2 : List SysEvent) :
    sysRun window s (l1 ++ l2) =
      ((sysRun window (sysRun window s l1).1 l2).1,
       (sysRun window s l1).2 ++ (sysRun window (sysRun window s l1).1 l2).2) := by
  induction l1 generalizing s with
  | nil => simp [sysRun]
  | cons e rest ih => simp [sysRun, ih]

/-- While the dependency state is not Ready, a run of focus events emits
nothing and leaves the state untouched. -/
theorem sysRun_notReady (window : Nat) (d : DepState) (hd : d ≠ .ready)
    (w : WakatimeState) :
    ∀ pre : List SysEvent, (∀ e ∈ pre, e.isFocusEvent = true) →
    sysRun window ⟨d, w⟩ pre = (⟨d, w⟩, []) := by
  intro pre
  induction pre with
  | nil => intro _; rfl
  | cons e rest ih =>
    intro h
    cases e with
    | installComplete =>
      have := h .installComplete (by simp)
      simp [SysEvent.isFocusEvent] at this
    | focusEvent t time =>
      have hstep : sysStep window ⟨d, w⟩ (.focusEvent t time) = (⟨d, w⟩, []) := by
        simp [sysStep, hd]
      have hrest := ih (fun e2 he2 => h e2 (by simp [he2]))
      simp [sysRun, hstep, hrest]

/-! Claim theorems. -/

/-- Claim C1, counterexample: with filterType Allowlist, a target whose
key matches an allowlist pattern is nevertheless not monitored when an
explicit per-app override disables it, so the decision does not follow the
allowlist alone. -/
theorem shouldMonitor_filterType_counterexample :
    (["/a"].any fun p =>
      matchesPattern p (targetKey .domain (MonitorTarget.app "/a"))) = true ∧
    shouldMonitor [("/a", false)] ⟨.allowlist, [], ["/a"], .domain⟩
      (MonitorTarget.app "/a") = false := by
  decide

/-- Claim C1 (amended): for every target passing the override gate (no
explicit per-app override for an application target; an explicitly
monitored browser for a browser-tab target), shouldMonitor follows the
filterType-selected list: Allowlist monitors iff some allowlist pattern
matches the target key (the denylist is irrelevant, as the right-hand side
mentions only the allowlist while the denylist is universally quantified);
Denylist monitors iff no denylist pattern matches; MonitorAll always
monitors. -/
theorem shouldMonitor_follows_filterType (cat : Catalog) (cfg : PolicyConfig)
    (t : MonitorTarget) (h : overrideGate cat t = true) :
    (cfg.filterType = .allowlist →
      (shouldMonitor cat cfg t = true ↔
        ∃ p ∈ cfg.allowlist,
          matchesPattern p (targetKey cfg.domainPreference t) = true)) ∧
    (cfg.filterType = .denylist →
      (shouldMonitor cat cfg t = true ↔
        ∀ p ∈ cfg.denylist,
          matchesPattern p (targetKey cfg.domainPreference t) = false)) ∧
    (cfg.filterType = .monitorAll → shouldMonitor cat cfg t = true) := by
  have hld := shouldMonitor_eq_listDecision cat cfg t h
  obtain ⟨ft, dl0, al, dp⟩ := cfg
  refine ⟨fun hft => ?_, fun hft => ?_, fun hft => ?_⟩
  · have hft2 : ft = .allowlist := hft
    subst hft2
    rw [hld]
    simp [listDecision, List.any_eq_true]
  · have hft2 : ft = .denylist := hft
    subst hft2
    rw [hld]
    simp [listDecision, List.any_eq_false]
  · have hft2 : ft = .monitorAll := hft
    subst hft2
    rw [hld]
    rfl

/-- Claim C1, witness at a concrete input: empty catalog, allowlist mode
with a matching pattern for an application target. -/
theorem shouldMonitor_follows_filterType_witness :
    overrideGate [] (MonitorTarget.app "/usr/bin/vim") = true ∧
    ((FilterType.allowlist = FilterType.allowlist →
        (shouldMonitor [] ⟨.allowlist, ["deny"], ["vim"], .domain⟩
            (MonitorTarget.app "/usr/bin/vim") = true ↔
          ∃ p ∈ ["vim"], matchesPattern p "/usr/bin/vim" = true)) ∧
      (FilterType.allowlist = FilterType.denylist →
        (shouldMonitor [] ⟨.allowlist, ["deny"], ["vim"], .domain⟩
            (MonitorTarget.app "/usr/bin/vim") = true ↔
          ∀ p ∈ ["deny"], matchesPattern p "/usr/bin/vim" = false)) ∧
      (FilterType.allowlist = FilterType.monitorAll →
        shouldMonitor [] ⟨.allowlist, ["deny"], ["vim"], .domain⟩
          (MonitorTarget.app "/usr/bin/vim") = true)) :=
  ⟨by decide,
   shouldMonitor_follows_filterType [] ⟨.allowlist, ["deny"], ["vim"], .domain⟩
     (MonitorTarget.app "/usr/bin/vim") (by decide)⟩

/-- Claim C2: an explicit per-app monitored override short-circuits the
decision for the application it covers, and an explicit monitored = false
on the override governing a target always yields shouldMonitor = false,
whatever the global filter type and list contents. -/
theorem monitored_override_wins (cat : Catalog) (cfg : PolicyConfig) :
    (∀ p b, appOverride cat p = some b →
      shouldMonitor cat cfg (MonitorTarget.app p) = b) ∧
    (∀ t, targetOverride cat t = some false → shouldMonitor cat cfg t = false) := by
  constructor
  · intro p b hb
    simp [shouldMonitor, hb]
  · intro t ht
    cases t with
    | app p =>
      have hb : appOverride cat p = some false := ht
      simp [shouldMonitor, hb]
    | browserTab bp d =>
      have hb : appOverride cat bp = some false := ht
      simp [shouldMonitor, hb]

/-- Claim C2, witness: Slack explicitly disabled under MonitorAll is not
monitored. -/
theorem monitored_override_wins_witness :
    targetOverride [("/Applications/Slack.app", false)]
      (MonitorTarget.app "/Applications/Slack.app") = some false ∧
    shouldMonitor [("/Applications/Slack.app", false)]
      ⟨.monitorAll, [], [], .domain⟩
      (MonitorTarget.app "/Applications/Slack.app") = false :=
  ⟨by decide,
   (monitored_override_wins [("/Applications/Slack.app", false)]
       ⟨.monitorAll, [], [], .domain⟩).2
     (MonitorTarget.app "/Applications/Slack.app") (by decide)⟩

/-- Claim C5: a browser-tab target whose browser is not explicitly
monitored in the catalog is refused regardless of list policy, domain
preference and filter type. -/
theorem browser_unmonitored_refused (cat : Catalog) (cfg : PolicyConfig)
    (bp d : String) (h : appOverride cat bp ≠ some true) :
    shouldMonitor cat cfg (MonitorTarget.browserTab bp d) = false := by
  simp [shouldMonitor, h]

/-- Claim C5, witness: a domain matching the allowlist is still refused
when the browser has no monitored override. -/
theorem browser_unmonitored_refused_witness :
    appOverride [] "/usr/bin/chrome" ≠ some true ∧
    shouldMonitor [] ⟨.allowlist, [], ["example.com"], .domain⟩
      (MonitorTarget.browserTab "/usr/bin/chrome" "docs.example.com") = false :=
  ⟨by decide,
   browser_unmonitored_refused [] ⟨.allowlist, [], ["example.com"], .domain⟩
     "/usr/bin/chrome" "docs.example.com" (by decide)⟩

/-- Claim C6: setting a (section, key, value) triple and reading it back
with the same internal flag returns exactly that value, both directly and
after a process restart that rebuilds the cache from the durable bytes. -/
theorem config_roundtrip_durable (c : ConfigStore) (sec key value : String)
    (internal : Bool) :
    ConfigFile.getSetting (ConfigFile.setSetting c sec key value internal)
      sec key internal = some value ∧
    ConfigFile.getSetting
      (restartConfig (ConfigFile.setSetting c sec key value internal))
      sec key internal = some value := by
  constructor
  · exact cfgLookup_cfgUpsert_self c.cache (internal, sec, key) value
  · exact cfgLookup_cfgUpsert_self c.disk (internal, sec, key) value

/-- Claim C8: the Watcher is a two-state machine: start moves Stopped to
Running, stop moves Running to Stopped, and each call is a no-op in the
matching state. -/
theorem watcher_two_state_machine :
    watcherStart .stopped = .running ∧ watcherStop .running = .stopped ∧
    watcherStart .running = .running ∧ watcherStop .stopped = .stopped := by
  decide

/-- Claim C3: a sequence of N identical consecutive targets whose
timestamps all fall inside the debounce window opened by the first event
produces exactly one send, the first event: the final dispatcher state
still records the first timestamp and the send count is one. -/
theorem debounce_single_send (window : Nat) (t : MonitorTarget) (t0 : Nat)
    (times : List Nat) (h : ∀ τ ∈ times, τ < t0 + window) :
    runEvents window initialWakatime ((t, t0) :: times.map fun τ => (t, τ)) =
      (⟨some t, t0⟩, 1) := by
  have h0 : handleEvent window initialWakatime t t0 = (⟨some t, t0⟩, true) := rfl
  simp [runEvents, h0, runEvents_same_within window t t0 times h]

/-- Claim C3, witness: two events for the same browser tab 5 seconds apart
under a 30 second window produce exactly one send. -/
theorem debounce_single_send_witness :
    (∀ τ ∈ [5], τ < 0 + 30) ∧
    runEvents 30 initialWakatime
      ((MonitorTarget.browserTab "/usr/bin/chrome" "docs.example.com", 0) ::
        [5].map fun τ => (MonitorTarget.browserTab "/usr/bin/chrome" "docs.example.com", τ)) =
      (⟨some (MonitorTarget.browserTab "/usr/bin/chrome" "docs.example.com"), 0⟩, 1) :=
  ⟨by decide,
   debounce_single_send 30 (MonitorTarget.browserTab "/usr/bin/chrome" "docs.example.com")
     0 [5] (by decide)⟩

/-- Claim C4: in a sequence in which every target differs from its
immediate predecessor (and the first differs from the last-sent target of
the starting state), every event is sent: the send count equals the length
of the sequence, so debounce never suppresses a distinct target. -/
theorem target_change_always_sends (window : Nat) :
    ∀ (events : List (MonitorTarget × Nat)) (s : WakatimeState),
    List.Chain' (fun a b => a.1 ≠ b.1) events →
    (∀ p, p ∈ events.head? → s.lastTarget ≠ some p.1) →
    (runEvents window s events).2 = events.length := by
  intro events
  induction events with
  | nil => intro s _ _; rfl
  | cons e rest ih =>
    intro s hchain hhead
    obtain ⟨t, time⟩ := e
    obtain ⟨lt, ls⟩ := s
    obtain ⟨hrel, hchain2⟩ := List.chain'_cons'.mp hchain
    have hsend : handleEvent window ⟨lt, ls⟩ t time = (⟨some t, time⟩, true) := by
      cases lt with
      | none => rfl
      | some l =>
        have hne : l ≠ t := by
          intro he
          exact hhead (t, time) (by simp) (by simp [he])
        simp [handleEvent, hne]
    have hhead2 : ∀ p, p ∈ rest.head? →
        (⟨some t, time⟩ : WakatimeState).lastTarget ≠ some p.1 := by
      intro p hp he
      exact hrel p hp (Option.some.inj he)
    have hrest := ih ⟨some t, time⟩ hchain2 hhead2
    simp [runEvents, hsend, hrest, Nat.add_comm]

/-- Claim C4, witness: two distinct targets in immediate succession are
both sent even inside one window. -/
theorem target_change_always_sends_witness :
    List.Chain' (fun (a b : MonitorTarget × Nat) => a.1 ≠ b.1)
      [(MonitorTarget.app "/x", 0), (MonitorTarget.app "/y", 1)] ∧
    (∀ p, p ∈ ([(MonitorTarget.app "/x", 0), (MonitorTarget.app "/y", 1)] :
        List (MonitorTarget × Nat)).head? →
      initialWakatime.lastTarget ≠ some p.1) ∧
    (runEvents 30 initialWakatime
      [(MonitorTarget.app "/x", 0), (MonitorTarget.app "/y", 1)]).2 = 2 :=
  ⟨by simp [List.chain'_cons],
   by simp [initialWakatime],
   target_change_always_sends 30
     [(MonitorTarget.app "/x", 0), (MonitorTarget.app "/y", 1)]
     initialWakatime (by simp [List.chain'_cons]) (by simp [initialWakatime])⟩

/-- Claim C7: while the dependency state is not Ready the dispatcher
rejects every send and keeps no record of the dropped events; after the
install completes, the run continues exactly as if started Ready with the
untouched dispatcher state, so dropped events are never retroactively
sent; and in the startup sequence of the main process the dependency
install precedes the watcher start. -/
theorem no_send_before_ready (window : Nat) (d : DepState) (w : WakatimeState)
    (pre post : List SysEvent) (hd : d ≠ .ready)
    (hpre : ∀ e ∈ pre, e.isFocusEvent = true) :
    sysRun window ⟨d, w⟩ pre = (⟨d, w⟩, []) ∧
    (sysRun window ⟨d, w⟩ (pre ++ SysEvent.installComplete :: post)).2 =
      (sysRun window ⟨.ready, w⟩ post).2 ∧
    whenReadySequence.indexOf .installDependencies <
      whenReadySequence.indexOf .watcherStartCall := by
  have h1 := sysRun_notReady window d hd w pre hpre
  refine ⟨h1, ?_, by decide⟩
  rw [sysRun_append, h1]
  simp [sysRun, sysStep]

/-- Claim C7, witness: a focus event arriving before the install completes
is dropped and not resent after Ready; the same event arriving after Ready
is sent. -/
theorem no_send_before_ready_witness :
    (DepState.unchecked ≠ DepState.ready) ∧
    (∀ e ∈ [SysEvent.focusEvent (MonitorTarget.app "/x") 0],
      e.isFocusEvent = true) ∧
    (sysRun 30 ⟨.unchecked, initialWakatime⟩
        [SysEvent.focusEvent (MonitorTarget.app "/x") 0] =
      (⟨.unchecked, initialWakatime⟩, []) ∧
    (sysRun 30 ⟨.unchecked, initialWakatime⟩
        ([SysEvent.focusEvent (MonitorTarget.app "/x") 0] ++
          SysEvent.installComplete ::
            [SysEvent.focusEvent (MonitorTarget.app "/x") 5])).2 =
      (sysRun 30 ⟨.ready, initialWakatime⟩
        [SysEvent.focusEvent (MonitorTarget.app "/x") 5]).2 ∧
    whenReadySequence.indexOf .installDependencies <
      whenReadySequence.indexOf .watcherStartCall) :=
  ⟨by decide, by decide,
   no_send_before_ready 30 .unchecked initialWakatime
     [SysEvent.focusEvent (MonitorTarget.app "/x") 0]
     [SysEvent.focusEvent (MonitorTarget.app "/x") 5]
     (by decide) (by decide)⟩

/-- Claim C9, counterexample: the main process registers the
getAppVersion channel, which is not among the operations enumerated by
the external-interface section of the spec. -/
theorem ipc_surface_counterexample :
    IpcKey.getAppVersion ∈ registeredIpcChannels ∧
    IpcKey.getAppVersion ∉ specExternalSurface := by
  simp [registeredIpcChannels, specExternalSurface]

/-- Claim C9 (amended): every IPC channel registered by the main process
corresponds to one of the operations enumerated by the external-interface
section, except for two additional query channels, getAppVersion and
isBrowserMonitored; conversely every enumerated operation has a registered
channel. -/
theorem ipc_surface_amended :
    registeredIpcChannels.all
      (fun k => specExternalSurface.contains k ||
        k == IpcKey.getAppVersion || k == IpcKey.isBrowserMonitored) = true ∧
    specExternalSurface.all (fun k => registeredIpcChannels.contains k) = true := by
  decide

/-- Claim C10: the IPC getSetting and setSetting handlers default the
internal flag to false when the caller omits it, so such calls read from
and write to the user-visible portion of the config store and leave the
internal portion untouched. -/
theorem ipc_internal_defaults_false (c : ConfigStore) (sec key value : String) :
    ipcGetSetting c sec key none = ConfigFile.getSetting c sec key false ∧
    ipcSetSetting c sec key value none = ConfigFile.setSetting c sec key value false ∧
    ∀ s2 k2, ConfigFile.getSetting (ipcSetSetting c sec key value none) s2 k2 true =
      ConfigFile.getSetting c s2 k2 true := by
  refine ⟨rfl, rfl, ?_⟩
  intro s2 k2
  exact cfgLookup_cfgUpsert_ne c.cache (false, sec, key) (true, s2, k2) value (by simp)
